import Mathlib

/-!
Verification development for the falling-letter shooter game (game 1 of the
MiniGames repository, source file `script.js` of the letter game).

The game state and the per-frame simulation functions are embedded shallowly:
DOM element positions become rational coordinates carried in the entity
records, the `setTimeout` spawn timer becomes event counters
(`timerCancels`, `scheduleCalls`) plus a spawn oracle `spawn : Nat → Letter`
standing for the randomized `createLetter`, and the on-screen keyboard styles
become a function `Char → Option ℚ` (`none` = the key's reset/neutral style,
`some q` = intensity `q`).
-/

/-- Difficulty tiers of the game (`DIFFICULTY_SETTINGS` keys). -/
inductive Difficulty where
  | easy
  | normal
  | hard
deriving DecidableEq

/-- Language selection (`selectedLanguage`), either English or Hebrew. -/
inductive GameLanguage where
  | en
  | he
deriving DecidableEq

/-- One record of the `DIFFICULTY_SETTINGS` table: base fall speed,
fall-speed increase per score point, and base spawn interval in ms. -/
structure DifficultySettings where
  speed : ℚ
  increase : ℚ
  spawn : ℤ
deriving DecidableEq

/-- The `DIFFICULTY_SETTINGS` table from the source:
easy `{0.3, 0.05, 10000}`, normal `{1, 0.15, 5000}`, hard `{2, 0.05, 3000}`. -/
def DIFFICULTY_SETTINGS : Difficulty → DifficultySettings
  | Difficulty.easy => { speed := 3/10, increase := 1/20, spawn := 10000 }
  | Difficulty.normal => { speed := 1, increase := 3/20, spawn := 5000 }
  | Difficulty.hard => { speed := 2, increase := 1/20, spawn := 3000 }

/-- Constant `PLAYER_SPEED = 8` (pixels per frame). -/
def PLAYER_SPEED : ℚ := 8

/-- Constant `PROJECTILE_SPEED = 10` (pixels per frame). -/
def PROJECTILE_SPEED : ℚ := 10

/-- Constant `LETTER_WIDTH = 40` (pixels, matches the stylesheet). -/
def LETTER_WIDTH : ℚ := 40

/-- Constant `PROJECTILE_WIDTH = 25` (pixels, matches the stylesheet). -/
def PROJECTILE_WIDTH : ℚ := 25

/-- Constant `MIN_SPAWN_INTERVAL = 400` (ms), the spawn-interval floor. -/
def MIN_SPAWN_INTERVAL : ℤ := 400

/-- Constant `SPAWN_INTERVAL_REDUCTION_PER_SCORE = 10` (ms per point). -/
def SPAWN_INTERVAL_REDUCTION_PER_SCORE : ℤ := 10

/-- Layout rows `ENGLISH_KEYBOARD_LAYOUT` from the source. -/
def ENGLISH_KEYBOARD_LAYOUT : List String :=
  ["QWERTYUIOP", "ASDFGHJKL", "ZXCVBNM"]

/-- Layout rows `HEBREW_KEYBOARD_LAYOUT` from the source. -/
def HEBREW_KEYBOARD_LAYOUT : List String :=
  ["קראטוןםפ", "שדגכעיחלךף", "זסבהנמצתץ"]

/-- Flattened character list `ENGLISH_CHARACTERS` (layout rows joined). -/
def ENGLISH_CHARACTERS : List Char :=
  (String.join ENGLISH_KEYBOARD_LAYOUT).data

/-- Flattened character list `HEBREW_CHARACTERS` (layout rows joined). -/
def HEBREW_CHARACTERS : List Char :=
  (String.join HEBREW_KEYBOARD_LAYOUT).data

/-- Environment constants read from the DOM at load time (`GAME_WIDTH`,
`GAME_HEIGHT`, `PLAYER_WIDTH`, the player element's height) together with
the stylesheet-determined heights of letter and projectile elements, which
the source reads back through `getBoundingClientRect`. -/
structure Config where
  gameWidth : ℚ
  gameHeight : ℚ
  playerWidth : ℚ
  playerHeight : ℚ
  letterHeight : ℚ
  projHeight : ℚ
deriving DecidableEq

/-- The spawn-interval formula of `scheduleNextLetter`:
`Math.max(MIN_SPAWN_INTERVAL, initialSpawnInterval - score * SPAWN_INTERVAL_REDUCTION_PER_SCORE)`. -/
def nextInterval (base : ℤ) (score : ℕ) : ℤ :=
  max MIN_SPAWN_INTERVAL (base - (score : ℤ) * SPAWN_INTERVAL_REDUCTION_PER_SCORE)

/-- A falling letter (an element of `fallingLetters`): its character, the
element's `left` style `x`, the logical position `letter.y`, and the
element's current `top` style `elemTop` (set to `Math.floor(letter.y)` by
`updateLetters`, `0` at spawn time). -/
structure Letter where
  character : Char
  x : ℚ
  y : ℚ
  elemTop : ℚ
deriving DecidableEq

/-- A projectile (an element of `projectiles`): its character (stored
lowercase), the element's `left` style `x` and `top` style `top`. -/
structure Projectile where
  character : Char
  x : ℚ
  top : ℚ
deriving DecidableEq

/-- An axis-aligned bounding box as returned by `getBoundingClientRect`,
in game-container coordinates. -/
structure Rect where
  left : ℚ
  top : ℚ
  right : ℚ
  bottom : ℚ
deriving DecidableEq

/-- The strict 2-D AABB overlap test of `updateProjectiles`:
`a.left < b.right && a.right > b.left && a.top < b.bottom && a.bottom > b.top`. -/
def overlaps (a b : Rect) : Bool :=
  decide (a.left < b.right) && decide (a.right > b.left) &&
  decide (a.top < b.bottom) && decide (a.bottom > b.top)

/-- Bounding box of a letter element: `left` style, current `top` style,
width `LETTER_WIDTH`, stylesheet height. -/
def letterRect (cfg : Config) (l : Letter) : Rect :=
  { left := l.x, top := l.elemTop, right := l.x + LETTER_WIDTH,
    bottom := l.elemTop + cfg.letterHeight }

/-- Bounding box of a projectile element: `left` style, current `top` style,
width `PROJECTILE_WIDTH`, stylesheet height. -/
def projRect (cfg : Config) (p : Projectile) : Rect :=
  { left := p.x, top := p.top, right := p.x + PROJECTILE_WIDTH,
    bottom := p.top + cfg.projHeight }

/-- The upward move of step 1 of `updateProjectiles`:
`proj.element.style.top = currentTop - PROJECTILE_SPEED`. -/
def movedProj (p : Projectile) : Projectile :=
  { p with top := p.top - PROJECTILE_SPEED }

/-- The per-pair collision condition of `updateProjectiles`: the character
match `proj.character.toUpperCase() === letter.character` together with the
bounding-box overlap of the (already moved) projectile and the letter. -/
def hitTest (cfg : Config) (p : Projectile) (l : Letter) : Bool :=
  (p.character.toUpper == l.character) && overlaps (projRect cfg p) (letterRect cfg l)

/-- Index of the first element, scanning the list from its END towards the
front, that satisfies `p` — exactly the backwards inner loop
`for (j = fallingLetters.length - 1; j >= 0; j--)` with early `break`.
Returns the GREATEST satisfying index, or `none`. -/
def lastMatchIdx (p : Letter → Bool) : List Letter → Option ℕ
  | [] => none
  | l :: ls =>
    match lastMatchIdx p ls with
    | some j => some (j + 1)
    | none => if p l then some 0 else none

/-- The mutable simulation fields touched by `updateProjectiles`: the score,
the falling-letter list, and the counters modelling the spawn timer
(`timerCancels` counts `clearTimeout(letterInterval)` calls, `scheduleCalls`
counts `scheduleNextLetter()` calls, `spawnIdx` indexes the spawn oracle). -/
structure SimSt where
  score : ℕ
  letters : List Letter
  timerCancels : ℕ
  scheduleCalls : ℕ
  spawnIdx : ℕ
deriving DecidableEq

/-- Processing of ONE projectile inside the loop of `updateProjectiles`:
move it up; scan the letters backwards for the first character-matching,
overlapping letter; on a hit increment the score, destroy both entities and,
if the letter set is now empty, cancel the pending timer, spawn one letter
immediately and re-arm the scheduler; with no hit, drop the projectile iff
its PRE-move top `currentTop` was negative. Returns the surviving
projectile(s) ([] or the moved singleton) and the updated state. -/
def processOne (cfg : Config) (spawn : ℕ → Letter) (p : Projectile) (st : SimSt) :
    List Projectile × SimSt :=
  match lastMatchIdx (hitTest cfg (movedProj p)) st.letters with
  | some j =>
    let letters' := st.letters.eraseIdx j
    if letters'.isEmpty then
      ([], { score := st.score + 1, letters := [spawn st.spawnIdx],
             timerCancels := st.timerCancels + 1,
             scheduleCalls := st.scheduleCalls + 1,
             spawnIdx := st.spawnIdx + 1 })
    else
      ([], { st with score := st.score + 1, letters := letters' })
  | none => if p.top < 0 then ([], st) else ([movedProj p], st)

/-- The outer loop of `updateProjectiles`
(`for (i = projectiles.length - 1; i >= 0; i--)`): the projectiles are
processed from the LAST to the first, threading the simulation state, and
the survivors keep their relative order. -/
def runProjectiles (cfg : Config) (spawn : ℕ → Letter) :
    List Projectile → SimSt → List Projectile × SimSt
  | [], st => ([], st)
  | p :: ps, st =>
    let rest := runProjectiles cfg spawn ps st
    let here := processOne cfg spawn p rest.2
    (here.1 ++ rest.1, here.2)

/-- The whole mutable game state: the global `let` variables of the script
(the DOM-held key styles are modelled as the function `keyStyles`, with
`none` standing for a reset/neutral key style). -/
structure GameState where
  score : ℕ
  gameIsActive : Bool
  playerPosition : ℚ
  fallingLetters : List Letter
  projectiles : List Projectile
  isMovingLeft : Bool
  isMovingRight : Bool
  selectedLanguage : GameLanguage
  initialFallSpeed : ℚ
  fallSpeedIncreasePerScore : ℚ
  initialSpawnInterval : ℤ
  timerCancels : ℕ
  scheduleCalls : ℕ
  spawnIdx : ℕ
  keyStyles : Char → Option ℚ

/-- Function `updateProjectiles` lifted to the whole game state. -/
def updateProjectiles (cfg : Config) (spawn : ℕ → Letter) (s : GameState) : GameState :=
  let r := runProjectiles cfg spawn s.projectiles
    { score := s.score, letters := s.fallingLetters, timerCancels := s.timerCancels,
      scheduleCalls := s.scheduleCalls, spawnIdx := s.spawnIdx }
  { s with projectiles := r.1, score := r.2.score, fallingLetters := r.2.letters,
           timerCancels := r.2.timerCancels, scheduleCalls := r.2.scheduleCalls,
           spawnIdx := r.2.spawnIdx }

/-- The per-tick fall speed of `updateLetters`:
`initialFallSpeed + (score * fallSpeedIncreasePerScore)`. -/
def fallSpeedOf (s : GameState) : ℚ :=
  s.initialFallSpeed + (s.score : ℚ) * s.fallSpeedIncreasePerScore

/-- The advance of one letter in `updateLetters`: `letter.y += fallSpeed`
and `letter.element.style.top = Math.floor(letter.y)`. -/
def advLetter (speed : ℚ) (l : Letter) : Letter :=
  { l with y := l.y + speed, elemTop := ((l.y + speed).floor : ℚ) }

/-- The backwards loop of `updateLetters` with its early `return` on a miss:
letters are processed from the LAST to the first; each processed letter is
advanced; as soon as a processed letter satisfies `letter.y > GAME_HEIGHT`
the loop stops (remaining letters are left untouched) and the game-over flag
`true` is reported. -/
def runLetters (speed H : ℚ) : List Letter → List Letter × Bool
  | [] => ([], false)
  | l :: ls =>
    let r := runLetters speed H ls
    if r.2 then (l :: r.1, true)
    else
      let l' := advLetter speed l
      if l'.y > H then (l' :: r.1, true) else (l' :: r.1, false)

/-- Function `endGame`: deactivate the session, cancel the pending spawn
timer (`clearTimeout(letterInterval)`), and reset every keyboard key to its
neutral style. -/
def endGame (s : GameState) : GameState :=
  { s with gameIsActive := false, timerCancels := s.timerCancels + 1,
           keyStyles := fun _ => none }

/-- Function `updateLetters`: advance the letters backwards and, if one has
fallen past the bottom (`letter.y > GAME_HEIGHT`), call `endGame`. -/
def updateLetters (cfg : Config) (s : GameState) : GameState :=
  let r := runLetters (fallSpeedOf s) cfg.gameHeight s.fallingLetters
  let s1 := { s with fallingLetters := r.1 }
  if r.2 then endGame s1 else s1

/-- Normalized proximity of one letter in `updateKeyboardVisuals`:
`letter.element.offsetTop / (GAME_HEIGHT - LETTER_WIDTH)`. -/
def prox (cfg : Config) (l : Letter) : ℚ :=
  l.elemTop / (cfg.gameHeight - LETTER_WIDTH)

/-- One iteration of the proximity-collection loop of
`updateKeyboardVisuals`: record this letter's proximity for its character
unless a strictly larger proximity is already recorded. -/
def proxUpdate (cfg : Config) (m : Char → Option ℚ) (l : Letter) : Char → Option ℚ :=
  fun c =>
    if c = l.character then
      match m l.character with
      | none => some (prox cfg l)
      | some q => if prox cfg l > q then some (prox cfg l) else some q
    else m c

/-- The `proximityMap` built by the first loop of `updateKeyboardVisuals`
(forward fold over the falling letters, starting from the empty map). -/
def proximityMap (cfg : Config) (ls : List Letter) : Char → Option ℚ :=
  ls.foldl (proxUpdate cfg) (fun _ => none)

/-- The per-key styling decision of `updateKeyboardVisuals`: a key whose
character has a recorded proximity gets intensity
`Math.min(proximity, 1)`; any other key is reset to neutral. -/
def keyStyleFor (cfg : Config) (ls : List Letter) (c : Char) : Option ℚ :=
  match proximityMap cfg ls c with
  | some p => some (min p 1)
  | none => none

/-- Merge of two optional proximities, keeping the larger (helper for
stating what the fold computes). -/
def omax : Option ℚ → Option ℚ → Option ℚ
  | none, b => b
  | some a, none => some a
  | some a, some b => some (max a b)

/-- Greatest element of a rational list, `none` when empty (helper for the
specification-side characterization). -/
def maxOfList : List ℚ → Option ℚ
  | [] => none
  | q :: qs => omax (some q) (maxOfList qs)

/-- Modelled from the spec (§4.4): intensity of a key is the maximum
normalized vertical position among falling letters sharing its character,
clamped to 1, and a character with no falling instance maps to neutral. -/
def specIntensity (cfg : Config) (ls : List Letter) (c : Char) : Option ℚ :=
  (maxOfList ((ls.filter (fun l => l.character == c)).map (prox cfg))).map
    (fun p => min p 1)

/-- Function `updatePlayerPosition`: apply the movement-intent flags at
`PLAYER_SPEED`, then clamp to `[0, GAME_WIDTH - PLAYER_WIDTH]` through the
two sequential boundary checks of the source. -/
def updatePlayerPosition (cfg : Config) (s : GameState) : GameState :=
  let p1 := if s.isMovingLeft then s.playerPosition - PLAYER_SPEED else s.playerPosition
  let p2 := if s.isMovingRight then p1 + PLAYER_SPEED else p1
  let p3 := if p2 < 0 then 0 else p2
  let p4 := if p3 > cfg.gameWidth - cfg.playerWidth then cfg.gameWidth - cfg.playerWidth else p3
  { s with playerPosition := p4 }

/-- Test for the shooting-key filter of `handleKeyPress`: the JS condition
`pressedKey.match(/[a-z]/i)` on a single character (an ASCII Latin letter of
either case). -/
def isLatinLetter (c : Char) : Bool :=
  (decide ('a' ≤ c) && decide (c ≤ 'z')) || (decide ('A' ≤ c) && decide (c ≤ 'Z'))

/-- Function `createProjectile`: push one projectile holding the given
character, horizontally at
`playerPosition + PLAYER_WIDTH / 2 - PROJECTILE_WIDTH / 2` and vertically at
`GAME_HEIGHT - player.offsetHeight`. -/
def createProjectile (cfg : Config) (c : Char) (s : GameState) : GameState :=
  { s with projectiles := s.projectiles ++
      [{ character := c,
         x := s.playerPosition + cfg.playerWidth / 2 - PROJECTILE_WIDTH / 2,
         top := cfg.gameHeight - cfg.playerHeight }] }

/-- Function `handleKeyPress`: ignore everything while the game is
inactive; otherwise set the movement-intent flag for an arrow key, and for
a single-character key that is a Latin letter (case-insensitive) or a
member of `HEBREW_CHARACTERS`, create one projectile carrying the
lowercased character. -/
def handleKeyPress (cfg : Config) (k : String) (s : GameState) : GameState :=
  if s.gameIsActive then
    let s1 :=
      if k = "ArrowLeft" then { s with isMovingLeft := true }
      else if k = "ArrowRight" then { s with isMovingRight := true }
      else s
    match k.data with
    | [c] =>
      if isLatinLetter c || HEBREW_CHARACTERS.contains c then
        createProjectile cfg c.toLower s1
      else s1
    | _ => s1
  else s

/-- Function `handleKeyUp`: clear the matching movement-intent flag,
with no `gameIsActive` guard. -/
def handleKeyUp (k : String) (s : GameState) : GameState :=
  if k = "ArrowLeft" then { s with isMovingLeft := false }
  else if k = "ArrowRight" then { s with isMovingRight := false }
  else s

/-- The state reached inside one `gameLoop` frame right before
`updateKeyboardVisuals` runs: player movement and projectile/collision
update already applied, letter advance not yet. -/
def preVisualState (cfg : Config) (spawn : ℕ → Letter) (s : GameState) : GameState :=
  updateProjectiles cfg spawn (updatePlayerPosition cfg s)

/-- One frame of `gameLoop`: a no-op when the game is inactive; otherwise
`updatePlayerPosition`, `updateProjectiles`, `updateKeyboardVisuals`
(which restyles the keys from the CURRENT letter list), then
`updateLetters` (which may call `endGame`), in the source's order. -/
def gameLoop (cfg : Config) (spawn : ℕ → Letter) (s : GameState) : GameState :=
  if s.gameIsActive then
    let s2 := preVisualState cfg spawn s
    let s3 := { s2 with keyStyles := keyStyleFor cfg s2.fallingLetters }
    updateLetters cfg s3
  else s

/-- A concrete environment: an 800 by 600 field, a 60 px wide and 80 px
tall player, 40 px tall letters and 25 px tall projectiles. -/
def cfg0 : Config :=
  { gameWidth := 800, gameHeight := 600, playerWidth := 60, playerHeight := 80,
    letterHeight := 40, projHeight := 25 }

/-- A concrete spawn oracle: every spawn produces the letter Q at the left
edge (spawned letters start at `y = 0`, `top = 0`). -/
def spawn0 : ℕ → Letter :=
  fun _ => { character := 'Q', x := 0, y := 0, elemTop := 0 }

/-- Scratch state for the C7 counterexample: one letter A at `y = 0.9`
whose element still shows `top = 0`, no projectiles, easy tier, score 0. -/
def s7 : GameState :=
  { score := 0, gameIsActive := true, playerPosition := 0,
    fallingLetters := [{ character := 'A', x := 0, y := 9/10, elemTop := 0 }],
    projectiles := [], isMovingLeft := false, isMovingRight := false,
    selectedLanguage := GameLanguage.en, initialFallSpeed := 3/10,
    fallSpeedIncreasePerScore := 1/20, initialSpawnInterval := 10000,
    timerCancels := 0, scheduleCalls := 0, spawnIdx := 0,
    keyStyles := fun _ => none }

/-- Concrete letter A at `x = 0`, displayed at `top = 50`. -/
def lA : Letter := { character := 'A', x := 0, y := 50, elemTop := 50 }

/-- Concrete letter B at `x = 100`, displayed at `top = 50`. -/
def lB : Letter := { character := 'B', x := 100, y := 50, elemTop := 50 }

/-- Concrete letter C at `x = 200`, displayed at `top = 50`. -/
def lC : Letter := { character := 'C', x := 200, y := 50, elemTop := 50 }

/-- Concrete projectile a aimed at `lA` (after its move it overlaps `lA`). -/
def pa : Projectile := { character := 'a', x := 5, top := 60 }

/-- Concrete projectile b aimed at `lB`. -/
def pb : Projectile := { character := 'b', x := 105, top := 60 }

/-- Concrete projectile c aimed at `lC`. -/
def pc : Projectile := { character := 'c', x := 205, top := 60 }

/-- Concrete projectile with the character of `lA` but far to the right,
so the characters match and the boxes do NOT overlap. -/
def paFar : Projectile := { character := 'a', x := 500, top := 60 }

/-- Simulation state with the three letters A, B, C and score 0. -/
def stC3 : SimSt :=
  { score := 0, letters := [lA, lB, lC], timerCancels := 0, scheduleCalls := 0, spawnIdx := 0 }

/-- The three projectiles a, b, c (one matching hit for each letter of `stC3`). -/
def psC3 : List Projectile := [pa, pb, pc]

/-- Simulation state with the two letters A and B. -/
def stW1 : SimSt :=
  { score := 0, letters := [lA, lB], timerCancels := 0, scheduleCalls := 0, spawnIdx := 0 }

/-- Simulation state with the single letter A. -/
def stW3 : SimSt :=
  { score := 0, letters := [lA], timerCancels := 0, scheduleCalls := 0, spawnIdx := 0 }

/-- Projectile whose pre-move top is `5`: after the move its top is `-5`,
past the top boundary, yet it can still resolve a hit on a letter at the
very top of the field. -/
def p8 : Projectile := { character := 'a', x := 5, top := 5 }

/-- Simulation state with one letter A sitting at the very top. -/
def st8 : SimSt :=
  { score := 0, letters := [{ character := 'A', x := 0, y := 0, elemTop := 0 }],
    timerCancels := 0, scheduleCalls := 0, spawnIdx := 0 }

/-- Simulation state with no letters at all. -/
def stEmpty : SimSt :=
  { score := 0, letters := [], timerCancels := 0, scheduleCalls := 0, spawnIdx := 0 }

/-- An active English-language session with no entities (player centered
by `startGame`: `(800 - 60) / 2 = 370`). -/
def s9 : GameState :=
  { score := 0, gameIsActive := true, playerPosition := 370,
    fallingLetters := [], projectiles := [],
    isMovingLeft := false, isMovingRight := false,
    selectedLanguage := GameLanguage.en, initialFallSpeed := 3/10,
    fallSpeedIncreasePerScore := 1/20, initialSpawnInterval := 10000,
    timerCancels := 0, scheduleCalls := 0, spawnIdx := 0,
    keyStyles := fun _ => none }

/-- The session `s9` with both movement flags raised. -/
def sRun : GameState := { s9 with isMovingLeft := true, isMovingRight := true }

/-- An inactive session (game over or not yet started) with both movement
flags still raised. -/
def sIdle : GameState := { sRun with gameIsActive := false }

/-- An active session holding the single letter `lA`, used to exercise one
ordinary (no game-over) frame. -/
def s5 : GameState := { s9 with fallingLetters := [lA] }

/-- Letter that, advanced by a fall speed of 1, lands EXACTLY on the
600 px field height. -/
def lExact : Letter := { character := 'A', x := 0, y := 599, elemTop := 599 }

/-- Letter that, advanced by a fall speed of 1, passes the 600 px field
height. -/
def lPast : Letter := { character := 'B', x := 0, y := 6001/10, elemTop := 600 }

theorem lastMatchIdx_of_all_false (p : Letter → Bool) (ls : List Letter)
    (h : ∀ l ∈ ls, p l = false) : lastMatchIdx p ls = none := by
  induction ls with
  | nil => rfl
  | cons l ls ih =>
    have hl : p l = false := h l (List.mem_cons_self l ls)
    have hrest : lastMatchIdx p ls = none := ih (fun x hx => h x (List.mem_cons_of_mem l hx))
    simp [lastMatchIdx, hrest, hl]

theorem all_false_of_lastMatchIdx_none (p : Letter → Bool) (ls : List Letter)
    (h : lastMatchIdx p ls = none) : ∀ l ∈ ls, p l = false := by
  induction ls with
  | nil => intro l hl; cases hl
  | cons l ls ih =>
    intro x hx
    rcases List.mem_cons.1 hx with hx | hx
    · subst hx
      by_cases hp : p x = true
      · exfalso
        unfold lastMatchIdx at h
        cases hrec : lastMatchIdx p ls with
        | some j => rw [hrec] at h; cases h
        | none => rw [hrec] at h; simp [hp] at h
      · simpa using hp
    · unfold lastMatchIdx at h
      cases hrec : lastMatchIdx p ls with
      | some j => rw [hrec] at h; cases h
      | none => exact ih hrec x hx

theorem lastMatchIdx_spec (p : Letter → Bool) (ls : List Letter) (j : ℕ)
    (h : lastMatchIdx p ls = some j) :
    ∃ hj : j < ls.length, p (ls.get ⟨j, hj⟩) = true ∧
      ∀ k, ∀ hk : k < ls.length, j < k → p (ls.get ⟨k, hk⟩) = false := by
  induction ls generalizing j with
  | nil => cases h
  | cons l ls ih =>
    unfold lastMatchIdx at h
    cases hrec : lastMatchIdx p ls with
    | some j' =>
      rw [hrec] at h
      have hj : j = j' + 1 := by cases h; rfl
      subst hj
      obtain ⟨hlt, hpj, hafter⟩ := ih j' hrec
      refine ⟨by simpa using Nat.succ_lt_succ hlt, by simpa using hpj, ?_⟩
      intro k hk hjk
      cases k with
      | zero => cases hjk
      | succ k' =>
        have hk' : k' < ls.length := by simpa using hk
        have := hafter k' hk' (Nat.lt_of_succ_lt_succ hjk)
        simpa using this
    | none =>
      rw [hrec] at h
      by_cases hp : p l = true
      · rw [if_pos hp] at h
        have hj : j = 0 := by cases h; rfl
        subst hj
        refine ⟨Nat.succ_pos _, by simpa using hp, ?_⟩
        intro k hk hjk
        cases k with
        | zero => cases hjk
        | succ k' =>
          have hk' : k' < ls.length := by simpa using hk
          have hmem : ls.get ⟨k', hk'⟩ ∈ ls := List.get_mem ls k' hk'
          have := all_false_of_lastMatchIdx_none p ls hrec _ hmem
          simpa using this
      · rw [if_neg hp] at h
        cases h

theorem advLetter_y (speed : ℚ) (l : Letter) : (advLetter speed l).y = l.y + speed := rfl

theorem runLetters_safe (speed H : ℚ) (ls : List Letter)
    (h : ∀ l ∈ ls, l.y + speed ≤ H) :
    runLetters speed H ls = (ls.map (advLetter speed), false) := by
  induction ls with
  | nil => rfl
  | cons l ls ih =>
    have hrest := ih (fun x hx => h x (List.mem_cons_of_mem l hx))
    have hl : ¬ (advLetter speed l).y > H := by
      rw [advLetter_y]
      exact not_lt.2 (h l (List.mem_cons_self l ls))
    simp [runLetters, hrest, hl]

theorem runLetters_fst_of_not_over (speed H : ℚ) (ls : List Letter)
    (h : (runLetters speed H ls).2 = false) :
    (runLetters speed H ls).1 = ls.map (advLetter speed) := by
  induction ls with
  | nil => rfl
  | cons l ls ih =>
    simp only [runLetters] at h ⊢
    cases hrest : (runLetters speed H ls).2 with
    | true => rw [hrest] at h; simp at h
    | false =>
      rw [hrest] at h
      by_cases hl : (advLetter speed l).y > H
      · simp [hl] at h
      · simp [hl, ih hrest]

theorem runLetters_offender (speed H : ℚ) (ls ls2 : List Letter) (l : Letter)
    (hl : (advLetter speed l).y > H) (hsafe : ∀ x ∈ ls2, x.y + speed ≤ H) :
    runLetters speed H (ls ++ l :: ls2)
      = (ls ++ advLetter speed l :: ls2.map (advLetter speed), true) := by
  induction ls with
  | nil =>
    have hrest := runLetters_safe speed H ls2 hsafe
    simp [runLetters, hrest, hl]
  | cons x ls ih =>
    simp only [List.cons_append]
    unfold runLetters
    rw [ih]
    simp

theorem if_gt_eq_max (q x : ℚ) : (if x > q then x else q) = max q x := by
  by_cases h : x > q
  · rw [if_pos h, max_eq_right (le_of_lt h)]
  · rw [if_neg h, max_eq_left (not_lt.1 h)]

theorem omax_none_right (a : Option ℚ) : omax a none = a := by
  cases a <;> rfl

theorem omax_assoc (a b c : Option ℚ) : omax (omax a b) c = omax a (omax b c) := by
  cases a <;> cases b <;> cases c <;> simp [omax, max_assoc]

theorem maxOfList_cons (q : ℚ) (qs : List ℚ) :
    maxOfList (q :: qs) = omax (some q) (maxOfList qs) := rfl

theorem omax_none_left (b : Option ℚ) : omax none b = b := rfl

theorem proxUpdate_self (cfg : Config) (m : Char → Option ℚ) (l : Letter) :
    proxUpdate cfg m l l.character = omax (m l.character) (some (prox cfg l)) := by
  unfold proxUpdate
  rw [if_pos rfl]
  cases hm : m l.character with
  | none => rfl
  | some q =>
    simp only [omax]
    rw [← apply_ite some, if_gt_eq_max]

theorem proxUpdate_other (cfg : Config) (m : Char → Option ℚ) (l : Letter) (c : Char)
    (h : c ≠ l.character) : proxUpdate cfg m l c = m c := by
  unfold proxUpdate
  rw [if_neg h]

theorem foldl_proxUpdate (cfg : Config) (ls : List Letter) (m : Char → Option ℚ) (c : Char) :
    ls.foldl (proxUpdate cfg) m c
      = omax (m c) (maxOfList ((ls.filter (fun l => l.character == c)).map (prox cfg))) := by
  induction ls generalizing m with
  | nil => simp [maxOfList, omax_none_right]
  | cons l ls ih =>
    rw [List.foldl_cons, ih]
    by_cases hc : c = l.character
    · subst hc
      rw [proxUpdate_self]
      have hfilter : (l :: ls).filter (fun x => x.character == l.character) =
          l :: ls.filter (fun x => x.character == l.character) := by
        simp [List.filter_cons]
      rw [hfilter, List.map_cons, maxOfList_cons, omax_assoc]
    · rw [proxUpdate_other cfg m l c hc]
      have hfilter : (l :: ls).filter (fun x => x.character == c) =
          ls.filter (fun x => x.character == c) := by
        have : (l.character == c) = false := by
          simp [Ne.symm hc]
        simp [List.filter_cons, this]
      rw [hfilter]

theorem keyStyleFor_eq_specIntensity (cfg : Config) (ls : List Letter) (c : Char) :
    keyStyleFor cfg ls c = specIntensity cfg ls c := by
  unfold keyStyleFor specIntensity proximityMap
  rw [foldl_proxUpdate, omax_none_left]
  cases hmax : maxOfList ((ls.filter (fun l => l.character == c)).map (prox cfg)) with
  | none => rfl
  | some p => rfl

theorem processOne_hit (cfg : Config) (spawn : ℕ → Letter) (p : Projectile) (st : SimSt)
    (j : ℕ) (h : lastMatchIdx (hitTest cfg (movedProj p)) st.letters = some j) :
    processOne cfg spawn p st =
      if (st.letters.eraseIdx j).isEmpty then
        ([], { score := st.score + 1, letters := [spawn st.spawnIdx],
               timerCancels := st.timerCancels + 1,
               scheduleCalls := st.scheduleCalls + 1,
               spawnIdx := st.spawnIdx + 1 })
      else ([], { st with score := st.score + 1, letters := st.letters.eraseIdx j }) := by
  unfold processOne
  rw [h]

theorem processOne_nohit (cfg : Config) (spawn : ℕ → Letter) (p : Projectile) (st : SimSt)
    (h : lastMatchIdx (hitTest cfg (movedProj p)) st.letters = none) :
    processOne cfg spawn p st = if p.top < 0 then ([], st) else ([movedProj p], st) := by
  unfold processOne
  rw [h]

/-- C1: in each step, for each projectile scanned against the falling
letters, the first letter in scan order with a case-normalized character
match whose bounding box strictly overlaps the projectile's resolves a hit:
the score increments by exactly 1, both the projectile and the letter are
destroyed, and no letter beyond the hit one satisfied the test; when no
letter passes the match-and-overlap test (in particular for same-character
pairs whose boxes do not overlap) nothing is hit and the simulation state
is unchanged. -/
theorem C1_first_match_hit :
    (∀ (cfg : Config) (spawn : ℕ → Letter) (p : Projectile) (st : SimSt) (j : ℕ),
        lastMatchIdx (hitTest cfg (movedProj p)) st.letters = some j →
        (∃ hj : j < st.letters.length,
            hitTest cfg (movedProj p) (st.letters.get ⟨j, hj⟩) = true
            ∧ ∀ k, ∀ hk : k < st.letters.length, j < k →
                hitTest cfg (movedProj p) (st.letters.get ⟨k, hk⟩) = false)
        ∧ (processOne cfg spawn p st).2.score = st.score + 1
        ∧ (processOne cfg spawn p st).1 = []
        ∧ ((st.letters.eraseIdx j).isEmpty = false →
            (processOne cfg spawn p st).2.letters = st.letters.eraseIdx j))
    ∧ (∀ (cfg : Config) (spawn : ℕ → Letter) (p : Projectile) (st : SimSt),
        (∀ l ∈ st.letters, hitTest cfg (movedProj p) l = false) →
        (processOne cfg spawn p st).2 = st)
    ∧ (∀ (cfg : Config) (p : Projectile) (l : Letter),
        overlaps (projRect cfg p) (letterRect cfg l) = false →
        hitTest cfg p l = false) := by
  refine ⟨?_, ?_, ?_⟩
  · intro cfg spawn p st j h
    obtain ⟨hj, hpj, hafter⟩ := lastMatchIdx_spec _ _ _ h
    refine ⟨⟨hj, hpj, hafter⟩, ?_, ?_, ?_⟩
    · rw [processOne_hit cfg spawn p st j h]
      by_cases he : (st.letters.eraseIdx j).isEmpty <;> simp [he]
    · rw [processOne_hit cfg spawn p st j h]
      by_cases he : (st.letters.eraseIdx j).isEmpty <;> simp [he]
    · intro hne
      rw [processOne_hit cfg spawn p st j h]
      simp [hne]
  · intro cfg spawn p st h
    rw [processOne_nohit cfg spawn p st (lastMatchIdx_of_all_false _ _ h)]
    by_cases hc : p.top < 0 <;> simp [hc]
  · intro cfg p l h
    unfold hitTest
    rw [h, Bool.and_false]

theorem C1_first_match_hit_witness :
    ((processOne cfg0 spawn0 pa stW1).2.score = stW1.score + 1
      ∧ (processOne cfg0 spawn0 pa stW1).1 = []
      ∧ (processOne cfg0 spawn0 pa stW1).2.letters = stW1.letters.eraseIdx 0)
    ∧ (processOne cfg0 spawn0 paFar stW3).2 = stW3 := by
  have h1 := C1_first_match_hit.1 cfg0 spawn0 pa stW1 0 (by with_unfolding_all decide)
  have h2 := C1_first_match_hit.2.1 cfg0 spawn0 paFar stW3 (by
    intro l hl
    have : l = lA := by
      have : stW3.letters = [lA] := rfl
      rw [this] at hl
      simpa using hl
    subst this
    with_unfolding_all decide)
  exact ⟨⟨h1.2.1, h1.2.2.1, h1.2.2.2 (by with_unfolding_all decide)⟩, h2⟩

/-- C2: the Scheduler's next spawn interval is
`max(MIN_INTERVAL, base - score*REDUCTION)` ms, never below the configured
400 ms floor for any score; the easy tier at score 0 yields exactly its
configured 10000 ms base, and at score 50 yields `max(floor, base - 500)`. -/
theorem C2_spawn_interval_floor :
    (∀ (base : ℤ) (score : ℕ), MIN_SPAWN_INTERVAL ≤ nextInterval base score)
    ∧ nextInterval (DIFFICULTY_SETTINGS Difficulty.easy).spawn 0
        = (DIFFICULTY_SETTINGS Difficulty.easy).spawn
    ∧ nextInterval (DIFFICULTY_SETTINGS Difficulty.easy).spawn 50
        = max MIN_SPAWN_INTERVAL ((DIFFICULTY_SETTINGS Difficulty.easy).spawn - 500)
    ∧ (DIFFICULTY_SETTINGS Difficulty.easy).spawn = 10000
    ∧ MIN_SPAWN_INTERVAL = 400 := by
  refine ⟨fun base score => le_max_left _ _, by decide, by decide, by decide, by decide⟩

/-- C3: when resolving a hit empties the falling-letter set, the same step
cancels the pending spawn timer, spawns exactly one letter immediately and
re-arms the Scheduler; concretely, three spawned letters hit by three
matching projectiles in one `updateProjectiles` pass leave exactly the one
immediately respawned letter, with the cancel and the re-arm each having
fired exactly once. -/
theorem C3_board_clear_respawn :
    (∀ (cfg : Config) (spawn : ℕ → Letter) (p : Projectile) (st : SimSt) (j : ℕ),
        lastMatchIdx (hitTest cfg (movedProj p)) st.letters = some j →
        (st.letters.eraseIdx j).isEmpty = true →
        (processOne cfg spawn p st).2 =
          { score := st.score + 1, letters := [spawn st.spawnIdx],
            timerCancels := st.timerCancels + 1,
            scheduleCalls := st.scheduleCalls + 1,
            spawnIdx := st.spawnIdx + 1 })
    ∧ runProjectiles cfg0 spawn0 psC3 stC3
        = ([], { score := 3, letters := [spawn0 0], timerCancels := 1,
                 scheduleCalls := 1, spawnIdx := 1 }) := by
  constructor
  · intro cfg spawn p st j h he
    rw [processOne_hit cfg spawn p st j h]
    simp [he]
  · with_unfolding_all decide

theorem C3_board_clear_respawn_witness :
    (processOne cfg0 spawn0 pa stW3).2 =
      { score := 1, letters := [spawn0 0], timerCancels := 1,
        scheduleCalls := 1, spawnIdx := 1 } := by
  have h := C3_board_clear_respawn.1 cfg0 spawn0 pa stW3 0
    (by with_unfolding_all decide) (by with_unfolding_all decide)
  simpa [stW3] using h

/-- C4: a falling letter whose advanced position lands exactly on the field
height does not end the game (the test `letter.y > GAME_HEIGHT` is strict);
a letter whose advanced position strictly exceeds the field height makes
`updateLetters` end the game at once, and the letters not yet reached by
the (backwards) scan are left unprocessed that tick. -/
theorem C4_bottom_boundary :
    (∀ (speed H : ℚ) (ls : List Letter), (∀ l ∈ ls, l.y + speed ≤ H) →
        runLetters speed H ls = (ls.map (advLetter speed), false))
    ∧ (∀ (speed H : ℚ) (l : Letter), (advLetter speed l).y = H →
        (runLetters speed H [l]).2 = false)
    ∧ (∀ (speed H : ℚ) (ls ls2 : List Letter) (l : Letter),
        (advLetter speed l).y > H → (∀ x ∈ ls2, x.y + speed ≤ H) →
        runLetters speed H (ls ++ l :: ls2)
          = (ls ++ advLetter speed l :: ls2.map (advLetter speed), true))
    ∧ (∀ (cfg : Config) (s : GameState),
        (runLetters (fallSpeedOf s) cfg.gameHeight s.fallingLetters).2 = true →
        (updateLetters cfg s).gameIsActive = false)
    ∧ (∀ (cfg : Config) (s : GameState),
        (runLetters (fallSpeedOf s) cfg.gameHeight s.fallingLetters).2 = false →
        (updateLetters cfg s).gameIsActive = s.gameIsActive) := by
  refine ⟨runLetters_safe, ?_, runLetters_offender, ?_, ?_⟩
  · intro speed H l hl
    have hsafe : ∀ x ∈ [l], x.y + speed ≤ H := by
      intro x hx
      have hx' : x = l := by simpa using hx
      subst hx'
      rw [← advLetter_y speed x, hl]
    rw [runLetters_safe speed H [l] hsafe]
  · intro cfg s h
    simp only [updateLetters]
    rw [h]
    simp [endGame]
  · intro cfg s h
    simp only [updateLetters]
    rw [h]
    simp

set_option maxRecDepth 10000 in
theorem C4_bottom_boundary_witness :
    (runLetters 1 600 [lExact]).2 = false
    ∧ runLetters 1 600 ([lExact] ++ lPast :: [])
        = ([lExact] ++ advLetter 1 lPast :: [], true) := by
  constructor
  · exact C4_bottom_boundary.2.1 1 600 lExact (by with_unfolding_all decide)
  · exact C4_bottom_boundary.2.2.1 1 600 [lExact] [] lPast
      (by with_unfolding_all decide) (by intro x hx; simp at hx)

theorem preVisualState_of_no_projectiles (cfg : Config) (spawn : ℕ → Letter)
    (s : GameState) (hp : s.projectiles = []) :
    preVisualState cfg spawn s
      = { s with playerPosition := (updatePlayerPosition cfg s).playerPosition } := by
  obtain ⟨sc, ga, pp, fl, pr, ml, mr, sl, f1, f2, f3, tc, scall, si, ks⟩ := s
  simp only at hp
  subst hp
  simp [preVisualState, updateProjectiles, updatePlayerPosition, runProjectiles]

theorem gameLoop_no_projectiles (cfg : Config) (spawn : ℕ → Letter) (s : GameState)
    (hact : s.gameIsActive = true) (hp : s.projectiles = []) :
    gameLoop cfg spawn s = updateLetters cfg
      { s with playerPosition := (updatePlayerPosition cfg s).playerPosition,
               keyStyles := keyStyleFor cfg s.fallingLetters } := by
  unfold gameLoop
  rw [hact, if_pos rfl, preVisualState_of_no_projectiles cfg spawn s hp]
  simp [hact]

theorem updateLetters_letters_of_active (cfg : Config) (s : GameState)
    (hact2 : (updateLetters cfg s).gameIsActive = true) :
    (updateLetters cfg s).fallingLetters
      = s.fallingLetters.map (advLetter (fallSpeedOf s)) := by
  simp only [updateLetters] at hact2 ⊢
  by_cases hr : (runLetters (fallSpeedOf s) cfg.gameHeight s.fallingLetters).2 = true
  · rw [if_pos hr] at hact2
    simp [endGame] at hact2
  · rw [if_neg hr]
    exact runLetters_fst_of_not_over _ _ _ (Bool.not_eq_true _ ▸ hr)

/-- C5: one frame of the loop during a session that is and stays active,
with no projectile in flight, advances every falling letter's vertical
position by exactly `initialFallSpeed + score * fallSpeedIncreasePerScore`;
that advance is strictly positive for every score under every difficulty
tier, so each letter's position strictly increases every tick. -/
theorem C5_letter_advance :
    (∀ (cfg : Config) (spawn : ℕ → Letter) (s : GameState),
        s.gameIsActive = true → (gameLoop cfg spawn s).gameIsActive = true →
        s.projectiles = [] →
        (gameLoop cfg spawn s).fallingLetters
          = s.fallingLetters.map (advLetter (fallSpeedOf s)))
    ∧ (∀ (speed : ℚ) (l : Letter), (advLetter speed l).y = l.y + speed)
    ∧ (∀ (d : Difficulty) (n : ℕ),
        0 < (DIFFICULTY_SETTINGS d).speed + (n : ℚ) * (DIFFICULTY_SETTINGS d).increase) := by
  refine ⟨?_, advLetter_y, ?_⟩
  · intro cfg spawn s hact hact2 hp
    rw [gameLoop_no_projectiles cfg spawn s hact hp] at hact2 ⊢
    exact updateLetters_letters_of_active cfg _ hact2
  · intro d n
    cases d <;> simp [DIFFICULTY_SETTINGS] <;> positivity

set_option maxRecDepth 10000 in
theorem C5_letter_advance_witness :
    s5.gameIsActive = true ∧ s5.projectiles = []
    ∧ (gameLoop cfg0 spawn0 s5).fallingLetters
        = s5.fallingLetters.map (advLetter (fallSpeedOf s5)) :=
  ⟨rfl, rfl, C5_letter_advance.1 cfg0 spawn0 s5 rfl (by with_unfolding_all decide) rfl⟩

/-- C6: the key styling pass maps each character that occurs among the
falling letters to the maximum normalized vertical position (closest to the
bottom) over the letters sharing that character, clamped to 1; a character
with no falling instance is reset to the neutral style; and `endGame`
resets every key to neutral. -/
theorem C6_key_intensity :
    (∀ (cfg : Config) (ls : List Letter) (c : Char),
        keyStyleFor cfg ls c = specIntensity cfg ls c)
    ∧ (∀ (s : GameState) (c : Char), (endGame s).keyStyles c = none) :=
  ⟨keyStyleFor_eq_specIntensity, fun _ _ => rfl⟩

set_option maxRecDepth 10000 in
/-- C7 counterexample: on a concrete active frame the key intensity written
by the loop for the character A differs from the intensity recomputed from
the post-step letter positions — `updateKeyboardVisuals` runs BEFORE
`updateLetters`, so it sees the pre-advance positions. -/
theorem C7_cex_visuals_prestep :
    (gameLoop cfg0 spawn0 s7).keyStyles 'A' = some 0
    ∧ keyStyleFor cfg0 ((gameLoop cfg0 spawn0 s7).fallingLetters) 'A' = some (1/560)
    ∧ (gameLoop cfg0 spawn0 s7).keyStyles 'A'
        ≠ keyStyleFor cfg0 ((gameLoop cfg0 spawn0 s7).fallingLetters) 'A' := by
  refine ⟨?_, ?_, ?_⟩ <;> with_unfolding_all decide

theorem keyStylesUpdate_fallSpeed (s : GameState) (k : Char → Option ℚ) :
    fallSpeedOf { s with keyStyles := k } = fallSpeedOf s := rfl

theorem keyStylesUpdate_letters (s : GameState) (k : Char → Option ℚ) :
    ({ s with keyStyles := k } : GameState).fallingLetters = s.fallingLetters := rfl

/-- C7 amended: in every frame of an active session the key intensities are
recomputed from the entity store as it stands AFTER the player/projectile
updates and collision resolution but BEFORE that frame's letter advance and
loss check; on a frame that ends in game-over every key is reset to
neutral instead. -/
theorem C7_visuals_midstep :
    ∀ (cfg : Config) (spawn : ℕ → Letter) (s : GameState) (c : Char),
      s.gameIsActive = true →
      ((runLetters (fallSpeedOf (preVisualState cfg spawn s)) cfg.gameHeight
          (preVisualState cfg spawn s).fallingLetters).2 = false →
        (gameLoop cfg spawn s).keyStyles c
          = keyStyleFor cfg (preVisualState cfg spawn s).fallingLetters c)
      ∧ ((runLetters (fallSpeedOf (preVisualState cfg spawn s)) cfg.gameHeight
          (preVisualState cfg spawn s).fallingLetters).2 = true →
        (gameLoop cfg spawn s).keyStyles c = none) := by
  intro cfg spawn s c hact
  unfold gameLoop
  rw [hact, if_pos rfl]
  constructor
  · intro hr
    simp only [updateLetters, keyStylesUpdate_fallSpeed, keyStylesUpdate_letters]
    rw [hr]
    simp
  · intro hr
    simp only [updateLetters, keyStylesUpdate_fallSpeed, keyStylesUpdate_letters]
    rw [hr]
    simp [endGame]

set_option maxRecDepth 10000 in
theorem C7_visuals_midstep_witness :
    (gameLoop cfg0 spawn0 s7).keyStyles 'A'
      = keyStyleFor cfg0 (preVisualState cfg0 spawn0 s7).fallingLetters 'A' :=
  (C7_visuals_midstep cfg0 spawn0 s7 'A' rfl).1 (by with_unfolding_all decide)

set_option maxRecDepth 10000 in
/-- C8 counterexample: a projectile whose advance carries it past the top
boundary (moved top `-5 < 0`) is NOT dropped before the collision scan — it
still resolves a hit on a letter at the very top of the field, incrementing
the score; under the claim it would have been discarded with no hit. -/
theorem C8_cex_offscreen_hit :
    (movedProj p8).top < 0
    ∧ processOne cfg0 spawn0 p8 st8
        = ([], { score := 1, letters := [spawn0 0], timerCancels := 1,
                 scheduleCalls := 1, spawnIdx := 1 }) := by
  constructor <;> with_unfolding_all decide

/-- C8 amended: each projectile is advanced upward by the fixed per-frame
speed and then scanned for collisions regardless of its position; a
projectile that resolves no hit is dropped exactly when its PRE-advance
top was already above the boundary (`currentTop < 0`), while a hit always
consumes the projectile and scores. -/
theorem C8_advance_scan_drop :
    (∀ p : Projectile, (movedProj p).top = p.top - PROJECTILE_SPEED)
    ∧ (∀ (cfg : Config) (spawn : ℕ → Letter) (p : Projectile) (st : SimSt),
        lastMatchIdx (hitTest cfg (movedProj p)) st.letters = none →
        processOne cfg spawn p st = if p.top < 0 then ([], st) else ([movedProj p], st))
    ∧ (∀ (cfg : Config) (spawn : ℕ → Letter) (p : Projectile) (st : SimSt) (j : ℕ),
        lastMatchIdx (hitTest cfg (movedProj p)) st.letters = some j →
        (processOne cfg spawn p st).1 = []
        ∧ (processOne cfg spawn p st).2.score = st.score + 1) := by
  refine ⟨fun p => rfl, processOne_nohit, ?_⟩
  intro cfg spawn p st j h
  rw [processOne_hit cfg spawn p st j h]
  by_cases he : (st.letters.eraseIdx j).isEmpty <;> simp [he]

theorem C8_advance_scan_drop_witness :
    processOne cfg0 spawn0 pa stEmpty
      = if pa.top < 0 then ([], stEmpty) else ([movedProj pa], stEmpty) :=
  C8_advance_scan_drop.2.1 cfg0 spawn0 pa stEmpty rfl

set_option maxRecDepth 10000 in
/-- C9 counterexample: with an active ENGLISH session, pressing the Hebrew
letter shin — a character that is not part of the active Latin alphabet —
still creates a projectile: `handleKeyPress` accepts Latin letters or
Hebrew letters regardless of the selected language. -/
theorem C9_cex_language_ignored :
    s9.gameIsActive = true
    ∧ s9.selectedLanguage = GameLanguage.en
    ∧ ENGLISH_CHARACTERS.contains 'ש' = false
    ∧ (handleKeyPress cfg0 ("ש") s9).projectiles.length = 1 := by
  refine ⟨rfl, rfl, by decide, by with_unfolding_all decide⟩

theorem singleton_key_ne (c : Char) (t : String) (h : t.data.length ≠ 1) :
    String.mk [c] ≠ t := by
  intro he
  apply h
  rw [← he]
  rfl

/-- C9 amended: while a session is active, a key-down whose key is a single
character that is an ASCII Latin letter (matched case-insensitively) or a
member of the Hebrew alphabet — irrespective of the selected language —
immediately enqueues exactly one projectile, horizontally centered on the
player (left edge at `playerPosition + PLAYER_WIDTH/2 - PROJECTILE_WIDTH/2`)
and carrying the lowercased character; any other single-character key
enqueues none; key input while no session is active changes nothing. -/
theorem C9_shoot_key_filter :
    (∀ (cfg : Config) (k : String) (s : GameState),
        s.gameIsActive = false → handleKeyPress cfg k s = s)
    ∧ (∀ (cfg : Config) (s : GameState) (c : Char),
        s.gameIsActive = true →
        (isLatinLetter c || HEBREW_CHARACTERS.contains c) = true →
        (handleKeyPress cfg (String.mk [c]) s).projectiles
          = s.projectiles ++
            [{ character := c.toLower,
               x := s.playerPosition + cfg.playerWidth / 2 - PROJECTILE_WIDTH / 2,
               top := cfg.gameHeight - cfg.playerHeight }])
    ∧ (∀ (cfg : Config) (s : GameState) (c : Char),
        s.gameIsActive = true →
        (isLatinLetter c || HEBREW_CHARACTERS.contains c) = false →
        (handleKeyPress cfg (String.mk [c]) s).projectiles = s.projectiles)
    ∧ (∀ (cfg : Config) (s : GameState),
        (s.playerPosition + cfg.playerWidth / 2 - PROJECTILE_WIDTH / 2)
            + PROJECTILE_WIDTH / 2
          = s.playerPosition + cfg.playerWidth / 2) := by
  have harrowL : ∀ c : Char, String.mk [c] ≠ "ArrowLeft" :=
    fun c => singleton_key_ne c _ (by decide)
  have harrowR : ∀ c : Char, String.mk [c] ≠ "ArrowRight" :=
    fun c => singleton_key_ne c _ (by decide)
  refine ⟨?_, ?_, ?_, ?_⟩
  · intro cfg k s h
    simp [handleKeyPress, h]
  · intro cfg s c hact hc
    simp at hc
    simp [handleKeyPress, hact, harrowL c, harrowR c, hc, createProjectile]
  · intro cfg s c hact hc
    simp at hc
    obtain ⟨h1, h2⟩ := hc
    simp [handleKeyPress, hact, harrowL c, harrowR c, h1, h2]
  · intro cfg s
    ring

theorem C9_shoot_key_filter_witness :
    handleKeyPress cfg0 ("x") sIdle = sIdle
    ∧ (handleKeyPress cfg0 (String.mk ['a']) s9).projectiles
        = s9.projectiles ++
          [{ character := Char.toLower 'a',
             x := s9.playerPosition + cfg0.playerWidth / 2 - PROJECTILE_WIDTH / 2,
             top := cfg0.gameHeight - cfg0.playerHeight }] :=
  ⟨C9_shoot_key_filter.1 cfg0 ("x") sIdle rfl,
   C9_shoot_key_filter.2.1 cfg0 s9 'a' rfl (by decide)⟩

/-- C10: a key-up for ArrowLeft or ArrowRight clears the corresponding
movement-intent flag in every session state (active or not), whereas the
corresponding key-down sets its flag only while the session is active —
any key-down while inactive leaves the state untouched. -/
theorem C10_arrow_key_flags :
    (∀ s : GameState, (handleKeyUp ("ArrowLeft") s).isMovingLeft = false)
    ∧ (∀ s : GameState, (handleKeyUp ("ArrowRight") s).isMovingRight = false)
    ∧ (∀ (cfg : Config) (s : GameState), s.gameIsActive = true →
        (handleKeyPress cfg ("ArrowLeft") s).isMovingLeft = true
        ∧ (handleKeyPress cfg ("ArrowRight") s).isMovingRight = true)
    ∧ (∀ (cfg : Config) (k : String) (s : GameState), s.gameIsActive = false →
        handleKeyPress cfg k s = s) := by
  refine ⟨?_, ?_, ?_, ?_⟩
  · intro s
    simp [handleKeyUp]
  · intro s
    simp [handleKeyUp]
  · intro cfg s hact
    constructor <;> simp [handleKeyPress, hact]
  · intro cfg k s h
    simp [handleKeyPress, h]

theorem C10_arrow_key_flags_witness :
    (handleKeyUp ("ArrowLeft") sRun).isMovingLeft = false
    ∧ (handleKeyUp ("ArrowRight") sRun).isMovingRight = false
    ∧ (handleKeyPress cfg0 ("ArrowLeft") s9).isMovingLeft = true
    ∧ handleKeyPress cfg0 ("ArrowLeft") sIdle = sIdle :=
  ⟨C10_arrow_key_flags.1 sRun, C10_arrow_key_flags.2.1 sRun,
   (C10_arrow_key_flags.2.2.1 cfg0 s9 rfl).1,
   C10_arrow_key_flags.2.2.2 cfg0 ("ArrowLeft") sIdle rfl⟩
